import Mathlib

/-
Verification of the point-cloud-to-raster core (PointUtils.cc and point2dem.cc).

Shallow embedding conventions:
* vw::Vector3 is modelled as a function from component index to a real number
  (components 0, 1, 2 are meaningful).
* double arithmetic is modelled as exact real (or rational, where a decidable
  order is needed for sorting and comparisons) arithmetic.
* The external vw geodesy library (GeoReference / Datum conversions) is out of
  scope of the repository; it is modelled as an abstract structure of
  conversion functions, and the theorems that need properties of it take them
  as explicit hypotheses.
* The C library routines strtok and sscanf are modelled as: splitting on a
  separator-character set dropping empty tokens, and an abstract numeric
  scanner passed in as a parameter.
* CSV column names are modelled as lists of characters and the std::map
  ordering on names as lexicographic comparison of those lists.
-/

/-! Basic 3-vector model (vw::Vector3). -/

abbrev Vec3 : Type := ℕ → ℝ

def vec3 (a b c : ℝ) : Vec3 := fun n => if n = 0 then a else if n = 1 then b else c

/-- norm_2 of a 3-vector. -/
noncomputable def norm2 (v : Vec3) : ℝ := Real.sqrt (v 0 ^ 2 + v 1 ^ 2 + v 2 ^ 2)

/-- C round(): round half away from zero, as used by cartesian_to_csv. -/
noncomputable def cround (x : ℝ) : ℤ := if 0 ≤ x then ⌊x + 1 / 2⌋ else -⌊-x + 1 / 2⌋

/-! Data model of asp::CsvConv (PointUtils.cc). -/

inductive CsvFormat
  | XYZ
  | HEIGHT_LAT_LON
  | LAT_LON_RADIUS_M
  | LAT_LON_RADIUS_KM
  | EASTING_HEIGHT_NORTHING
  deriving DecidableEq, Repr

/-- The fields of asp::CsvConv used by line parsing and coordinate conversion.
col2name maps zero-based column index to the declared name of that column;
col2sort maps column index to the position of that column's value in the
canonical sorted order; num_targets is the declared number of fields. -/
structure CsvConv where
  format : CsvFormat
  col2name : List (ℕ × List Char)
  col2sort : List (ℕ × ℕ)
  num_targets : ℕ

/-- asp::CsvConv::CsvRecord: up to three numeric fields (in file column order)
and one optional string field. -/
structure CsvRecord where
  point_data : ℕ → ℝ
  file : List Char

def emptyRecord : CsvRecord := ⟨fun _ => 0, []⟩

/-- The external vw::cartography::GeoReference object, abstracted to the four
conversion functions the repository code calls on it. -/
structure GeoRef where
  geodetic_to_cartesian : Vec3 → Vec3
  cartesian_to_geodetic : Vec3 → Vec3
  point_to_lonlat : ℝ × ℝ → ℝ × ℝ
  lonlat_to_point : ℝ × ℝ → ℝ × ℝ

/-! asp::CsvConv::sort_parsed_vector3 and unsort_vector3. -/

/-- Loop body of sort_parsed_vector3: iterate the col2sort map in column order,
writing csv.point_data[count] into slot it.second of the output vector whenever
it.second < 3; count increments on every entry. -/
def sortAux : List (ℕ × ℕ) → (ℕ → ℝ) → ℕ → (ℕ → ℝ) → (ℕ → ℝ)
  | [], _, _, acc => acc
  | (_, s) :: rest, pd, count, acc =>
    if s < 3 then sortAux rest pd (count + 1) (Function.update acc s (pd count))
    else sortAux rest pd (count + 1) acc

def sort_parsed_vector3 (conv : CsvConv) (csv : CsvRecord) : Vec3 :=
  sortAux conv.col2sort csv.point_data 0 (fun _ => 0)

/-- Loop body of unsort_vector3: iterate the col2sort map in column order,
writing csv[it.second] into slot count of the output vector whenever
it.second < 3; count increments only in that case. -/
def unsortAux : List (ℕ × ℕ) → (ℕ → ℝ) → ℕ → (ℕ → ℝ) → (ℕ → ℝ)
  | [], _, _, acc => acc
  | (_, s) :: rest, v, count, acc =>
    if s < 3 then unsortAux rest v (count + 1) (Function.update acc count (v s))
    else unsortAux rest v count acc

def unsort_vector3 (conv : CsvConv) (v : Vec3) : Vec3 :=
  unsortAux conv.col2sort v 0 (fun _ => 0)

/-! asp::CsvConv coordinate conversions (PointUtils.cc lines 632-790). -/

noncomputable def csv_to_cartesian (conv : CsvConv) (csv : CsvRecord) (geo : GeoRef) : Vec3 :=
  let ordered := sort_parsed_vector3 conv csv
  if conv.format = CsvFormat.XYZ then ordered
  else if conv.format = CsvFormat.EASTING_HEIGHT_NORTHING then
    let point_height := vec3 (ordered 0) (ordered 1) (ordered 2)
    let ll := geo.point_to_lonlat (point_height 0, point_height 1)
    geo.geodetic_to_cartesian (vec3 ll.1 ll.2 (point_height 2))
  else if conv.format = CsvFormat.HEIGHT_LAT_LON then
    geo.geodetic_to_cartesian ordered
  else
    let r := if conv.format = CsvFormat.LAT_LON_RADIUS_KM then 1000 * ordered 2 else ordered 2
    let xyz0 := geo.geodetic_to_cartesian (vec3 (ordered 0) (ordered 1) 0)
    fun n => r * (xyz0 n / norm2 xyz0)

noncomputable def csv_to_cartesian_or_point_height (conv : CsvConv) (csv : CsvRecord)
    (geo : GeoRef) (return_point_height : Bool) : Vec3 :=
  let ordered := sort_parsed_vector3 conv csv
  if conv.format = CsvFormat.XYZ then ordered
  else if conv.format = CsvFormat.EASTING_HEIGHT_NORTHING then
    let point_height := vec3 (ordered 0) (ordered 1) (ordered 2)
    if return_point_height then point_height
    else
      let ll := geo.point_to_lonlat (point_height 0, point_height 1)
      geo.geodetic_to_cartesian (vec3 ll.1 ll.2 (point_height 2))
  else if conv.format = CsvFormat.HEIGHT_LAT_LON then
    if return_point_height then ordered
    else geo.geodetic_to_cartesian ordered
  else
    let r := if conv.format = CsvFormat.LAT_LON_RADIUS_KM then 1000 * ordered 2 else ordered 2
    let xyz0 := geo.geodetic_to_cartesian (vec3 (ordered 0) (ordered 1) 0)
    let xyz : Vec3 := fun n => r * (xyz0 n / norm2 xyz0)
    if return_point_height then geo.cartesian_to_geodetic xyz else xyz

/-- asp::CsvConv::cartesian_to_csv: Cartesian to the declared scheme, with the
360-degree longitude renormalization toward mean_longitude, then restoring the
original column order. -/
noncomputable def cartesian_to_csv (conv : CsvConv) (xyz : Vec3) (geo : GeoRef)
    (mean_longitude : ℝ) : Vec3 :=
  let csv : Vec3 :=
    if conv.format = CsvFormat.XYZ then xyz
    else
      let llh0 := geo.cartesian_to_geodetic xyz
      let llh := Function.update llh0 0
        (llh0 0 + 360 * (cround ((mean_longitude - llh0 0) / 360) : ℝ))
      if conv.format = CsvFormat.EASTING_HEIGHT_NORTHING then
        let en := geo.lonlat_to_point (llh 0, llh 1)
        vec3 en.1 en.2 (llh 2)
      else if conv.format = CsvFormat.HEIGHT_LAT_LON then llh
      else
        Function.update llh 2
          (if conv.format = CsvFormat.LAT_LON_RADIUS_KM then norm2 xyz / 1000 else norm2 xyz)
  unsort_vector3 conv csv

/-! asp::CsvConv::parse_csv_line (PointUtils.cc lines 511-571) and
asp::CsvReader::ReadNextPoint (lines 190-217). -/

/-- The external pieces of text parsing: the separator set (asp::csv_separator)
and the numeric scanner (sscanf with %lg), abstracted. -/
structure TextEnv where
  isSep : Char → Bool
  scan : List Char → Option ℝ

/-- strtok tokenization: split on separator characters, dropping empty
tokens (strtok collapses runs of separators and skips leading ones). -/
def strtokSplit (isSep : Char → Bool) (line : List Char) : List (List Char) :=
  (line.splitOnP isSep).filter (fun t => !t.isEmpty)

def lookupCol : List (ℕ × List Char) → ℕ → Option (List Char)
  | [], _ => none
  | (c, n) :: rest, col => if c = col then some n else lookupCol rest col

/-- The token loop of parse_csv_line. Arguments after the token list: the
current column index, num_values_read, num_floats_read, and the record built
so far. Returns the record, the final num_values_read, and false exactly when
a numeric token failed to scan (the early break that clears success). -/
def parseTokens (scan : List Char → Option ℝ) (conv : CsvConv) :
    List (List Char) → ℕ → ℕ → ℕ → CsvRecord → CsvRecord × ℕ × Bool
  | [], _, nVals, _, rec => (rec, nVals, true)
  | tok :: toks, colIdx, nVals, nFloats, rec =>
    if conv.num_targets ≤ nVals then (rec, nVals, true)
    else
      match lookupCol conv.col2name colIdx with
      | none => parseTokens scan conv toks (colIdx + 1) nVals nFloats rec
      | some name =>
        if name = "file".data then
          parseTokens scan conv toks (colIdx + 1) (nVals + 1) nFloats { rec with file := tok }
        else
          match scan tok with
          | none => (rec, nVals, false)
          | some v =>
            parseTokens scan conv toks (colIdx + 1) (nVals + 1) (nFloats + 1)
              { rec with point_data := Function.update rec.point_data nFloats v }

def parse_csv_line_raw (env : TextEnv) (conv : CsvConv) (line : List Char) :
    CsvRecord × ℕ × Bool :=
  parseTokens env.scan conv (strtokSplit env.isSep line) 0 0 0 emptyRecord

/-- The success flag computed by parse_csv_line: no numeric token failed and
the number of parsed fields equals the declared target count. -/
def parse_success (env : TextEnv) (conv : CsvConv) (line : List Char) : Bool :=
  (parse_csv_line_raw env conv line).2.2 &&
    ((parse_csv_line_raw env conv line).2.1 == conv.num_targets)

/-- parse_csv_line: on failure it throws unless this is still the first line
(possible header); is_first_line always becomes false afterwards, which the
caller threads through its state. -/
def parse_csv_line (env : TextEnv) (conv : CsvConv) (is_first_line : Bool)
    (line : List Char) : Except String (CsvRecord × Bool) :=
  if !parse_success env conv line && !is_first_line then
    .error "Failed to read line"
  else
    .ok ((parse_csv_line_raw env conv line).1, parse_success env conv line)

/-- The mutable state of asp::CsvReader: the remaining lines of the file and
the is-first-line flag. -/
structure ReaderState where
  lines : List (List Char)
  is_first_line : Bool

/-- asp::CsvReader::ReadNextPoint: up to two attempts (the first line may be a
header); returns none at end of file, the next converted point otherwise, and
propagates the parse error thrown on a failing non-header line. -/
noncomputable def ReadNextPoint (env : TextEnv) (conv : CsvConv) (geo : GeoRef) :
    ReaderState → Except String (Option Vec3 × ReaderState)
  | ⟨[], f⟩ => .ok (none, ⟨[], f⟩)
  | ⟨l1 :: rest, first⟩ =>
    match parse_csv_line env conv first l1 with
    | .error e => .error e
    | .ok (vals, success) =>
      if success then
        .ok (some (csv_to_cartesian_or_point_height conv vals geo true), ⟨rest, false⟩)
      else
        match rest with
        | [] => .ok (none, ⟨[], false⟩)
        | l2 :: rest2 =>
          match parse_csv_line env conv false l2 with
          | .error e => .error e
          | .ok (vals2, _) =>
            .ok (some (csv_to_cartesian_or_point_height conv vals2 geo true), ⟨rest2, false⟩)

/-! asp::CsvConv::parse_csv_format (PointUtils.cc lines 345-481), modelled from
the point where the descriptor has been lexed into (column, name) pairs. -/

/-- Lexicographic comparison of names, modelling std::string operator<. -/
def charListLt : List Char → List Char → Bool
  | [], [] => false
  | [], _ :: _ => true
  | _ :: _, [] => false
  | a :: as, b :: bs => if a < b then true else if a = b then charListLt as bs else false

/-- Insertion into a key-sorted association list, replacing the value if the
key is present: std::map insertion combined with operator[] assignment. -/
def mapInsert {α β : Type} [DecidableEq α] (lt : α → α → Bool) (k : α) (v : β) :
    List (α × β) → List (α × β)
  | [] => [(k, v)]
  | (k2, v2) :: rest =>
    if lt k k2 then (k, v) :: (k2, v2) :: rest
    else if k = k2 then (k, v) :: rest
    else (k2, v2) :: mapInsert lt k v rest

def hasCol (k : ℕ) : List (ℕ × List Char) → Bool
  | [] => false
  | (k2, _) :: rest => k == k2 || hasCol k rest

/-- asp::CsvConv::get_sorted_index_for_name; none models the throw on an
unsupported name. -/
def get_sorted_index_for_name (name : List Char) : Option ℕ :=
  if name = "file".data then some 3
  else if name = "lon".data then some 0
  else if name = "lat".data then some 1
  else if name = "radius_m".data then some 2
  else if name = "radius_km".data then some 2
  else if name = "x".data then some 0
  else if name = "y".data then some 1
  else if name = "z".data then some 2
  else if name = "easting".data then some 0
  else if name = "northing".data then some 1
  else if name = "height_above_datum".data then some 2
  else none

/-- The result record of parse_csv_format. -/
structure ParsedFormat where
  format : CsvFormat
  name2col : List (List Char × ℕ)
  col2name : List (ℕ × List Char)
  col2sort : List (ℕ × ℕ)
  num_targets : ℕ
  deriving DecidableEq

/-- First loop of parse_csv_format: read (col, name) pairs, make the column
zero-based, reject non-positive or duplicate columns, and fill the two maps. -/
def buildMaps : List (ℤ × List Char) → List (List Char × ℕ) → List (ℕ × List Char) →
    Except String (List (List Char × ℕ) × List (ℕ × List Char))
  | [], n2c, c2n => .ok (n2c, c2n)
  | (col, name) :: rest, n2c, c2n =>
    let col0 : ℤ := col - 1
    if col0 < 0 || hasCol col0.toNat c2n then .error "Illegal column index"
    else
      buildMaps rest (mapInsert charListLt name col0.toNat n2c)
        (mapInsert (fun a b => a < b) col0.toNat name c2n)

/-- Second loop of parse_csv_format: iterate name2col in name order, compute
each name's sorted index (throwing on unsupported names), record it in
sorted_names and, for point fields, in col2sort. -/
def buildSorted : List (List Char × ℕ) → (ℕ → List Char) → List (ℕ × ℕ) →
    Except String ((ℕ → List Char) × List (ℕ × ℕ))
  | [], sortedNames, c2s => .ok (sortedNames, c2s)
  | (name, col) :: rest, sortedNames, c2s =>
    match get_sorted_index_for_name name with
    | none => .error "Unsupported column name"
    | some index =>
      buildSorted rest (Function.update sortedNames index name)
        (if index < 3 then mapInsert (fun a b => a < b) col index c2s else c2s)

/-- Final scheme determination of parse_csv_format from the first three sorted
names. -/
def determineFormat (sn : ℕ → List Char) : Except String CsvFormat :=
  if sn 0 = "x".data ∧ sn 1 = "y".data ∧ sn 2 = "z".data then
    .ok CsvFormat.XYZ
  else if sn 0 = "lon".data ∧ sn 1 = "lat".data ∧ sn 2 = "radius_m".data then
    .ok CsvFormat.LAT_LON_RADIUS_M
  else if sn 0 = "lon".data ∧ sn 1 = "lat".data ∧ sn 2 = "radius_km".data then
    .ok CsvFormat.LAT_LON_RADIUS_KM
  else if sn 0 = "lon".data ∧ sn 1 = "lat".data ∧ sn 2 = "height_above_datum".data then
    .ok CsvFormat.HEIGHT_LAT_LON
  else if sn 0 = "easting".data ∧ sn 1 = "northing".data ∧ sn 2 = "height_above_datum".data then
    .ok CsvFormat.EASTING_HEIGHT_NORTHING
  else .error "Cannot understand the csv format string"

def parse_csv_format (pairs : List (ℤ × List Char)) : Except String ParsedFormat :=
  match buildMaps pairs [] [] with
  | .error e => .error e
  | .ok (n2c, c2n) =>
    let num_targets := n2c.length
    if num_targets < 3 || 4 < num_targets then .error "Invalid number of column indices"
    else
      match buildSorted n2c (fun _ => []) [] with
      | .error e => .error e
      | .ok (sortedNames, c2s) =>
        match determineFormat sortedNames with
        | .error e => .error e
        | .ok fmt => .ok ⟨fmt, n2c, c2n, c2s, num_targets⟩

/-- Whether the declared 1-based column indices are contiguous: they cover
1..n for the n declared pairs. -/
def contiguousColumns (pairs : List (ℤ × List Char)) : Bool :=
  (List.range pairs.length).all (fun n => pairs.any (fun e => e.1 = (n : ℤ) + 1))

/-- The three point-column names of each coordinate scheme. -/
def schemeNames : CsvFormat → List (List Char)
  | CsvFormat.XYZ => ["x".data, "y".data, "z".data]
  | CsvFormat.LAT_LON_RADIUS_M => ["lon".data, "lat".data, "radius_m".data]
  | CsvFormat.LAT_LON_RADIUS_KM => ["lon".data, "lat".data, "radius_km".data]
  | CsvFormat.HEIGHT_LAT_LON => ["lon".data, "lat".data, "height_above_datum".data]
  | CsvFormat.EASTING_HEIGHT_NORTHING =>
    ["easting".data, "northing".data, "height_above_datum".data]

/-! asp::ErrorRangeEstimAccum (point2dem.cc lines 842-881) and the error range
estimation loop in main (lines 1278-1309). -/

/-- ErrorRangeEstimAccum::operator() over a list of incoming samples: only
strictly positive error values are accumulated. -/
def errorAccumVals (vals : List ℚ) : List ℚ :=
  vals.foldl (fun acc v => if 0 < v then acc ++ [v] else acc) []

/-- ErrorRangeEstimAccum::value: sort the samples, take the percentile index
k = min(len-1, floor(pct*len)) and return sorted[k]*factor*4; none models the
assertion failure on an empty sample set. -/
def errorRangeEstimValue (vals : List ℚ) (pct100 factor : ℚ) : Option ℚ :=
  if vals.isEmpty then none
  else
    let sorted := vals.insertionSort (· ≤ ·)
    let len : ℤ := sorted.length
    let k : ℤ := min (len - 1) ⌊pct100 / 100 * (len : ℚ)⌋
    some (sorted.getD k.toNat 0 * factor * 4)

/-- The density-increase loop of main: for each attempt the subsample amount
amt(count) is tried; a nonempty accumulated sample produces the estimate, an
empty one at full density (amount 1) gives up, and the attempt list is
otherwise exhausted. -/
def estimLoop (sample : ℕ → List ℚ) (amt : ℕ → ℕ) (pct100 factor : ℚ) :
    List ℕ → Option ℚ
  | [] => none
  | c :: cs =>
    let vals := errorAccumVals (sample (amt c))
    if 0 < vals.length then errorRangeEstimValue vals pct100 factor
    else if amt c = 1 then none
    else estimLoop sample amt pct100 factor cs

/-- The attempt counts 7..18 used by the loop in main. -/
def estimCounts : List ℕ := [7, 8, 9, 10, 11, 12, 13, 14, 15, 16, 17, 18]

/-! FillNoDataWithAvg (point2dem.cc lines 554-618). -/

/-- The list of integers from lo to hi inclusive. -/
def intRange (lo hi : ℤ) : List ℤ := (List.range (hi + 1 - lo).toNat).map (fun t => lo + t)

/-- The valid pixel values in the kernel window centered at (i, j), clipped to
the image bounds, in the column-then-row order of the source loops. -/
def windowValidCells (img : ℤ → ℤ → Option ℚ) (nc nr : ℤ) (kernel_size : ℕ) (i j : ℤ) :
    List ℚ :=
  let k2 : ℤ := (kernel_size : ℤ) / 2
  (intRange (max 0 (i - k2)) (min (nc - 1) (i + k2))).flatMap (fun c =>
    (intRange (max 0 (j - k2)) (min (nr - 1) (j + k2))).filterMap (fun r => img c r))

/-- FillNoDataWithAvg::operator(): a valid pixel is returned unchanged; an
invalid one becomes the average of the valid pixels in the clipped window, or
stays invalid if there are none. -/
def FillNoDataWithAvg (img : ℤ → ℤ → Option ℚ) (nc nr : ℤ) (kernel_size : ℕ) (i j : ℤ) :
    Option ℚ :=
  match img i j with
  | some v => some v
  | none =>
    let cells := windowValidCells img nc nr kernel_size i j
    if cells.length = 0 then img i j
    else some (cells.sum / cells.length)

/-! asp::LasOrCsvToTif_Class constructor arithmetic (PointUtils.cc 250-260). -/

/-- Ceiling division on naturals, modelling (int)ceil(double(a)/b). -/
def ceil_div (a b : ℕ) : ℕ := (a + b - 1) / b

def tif_num_rows (num_rows tile_len : ℕ) : ℕ :=
  tile_len * max 1 (ceil_div num_rows tile_len)

def tif_num_cols (num_points num_rows tile_len : ℕ) : ℕ :=
  let points_per_row := ceil_div num_points (tif_num_rows num_rows tile_len)
  tile_len * max 1 (ceil_div points_per_row tile_len)

/-! asp::is_valid_csv_line and asp::csv_file_size (PointUtils.cc 976-995). -/

/-- A valid line is not empty and does not start with the comment character. -/
def is_valid_csv_line (line : List Char) : Bool :=
  (!line.isEmpty) && !(line.headD ' ' == '#')

/-- csv_file_size: count the valid lines of the file. -/
def csv_file_size (lines : List (List Char)) : ℕ :=
  lines.foldl (fun n line => if is_valid_csv_line line then n + 1 else n) 0

/-! Concrete instances used by the scenario parts of the claims and by the
witnesses. -/

/-- A geo reference whose conversions are identities except that every
geodetic triple maps to the fixed Cartesian point (1, 0, 0). -/
def constGeo : GeoRef where
  geodetic_to_cartesian := fun _ => vec3 1 0 0
  cartesian_to_geodetic := fun v => v
  point_to_lonlat := fun q => q
  lonlat_to_point := fun q => q

/-- A geo reference whose four conversions are all identities. -/
def idGeo : GeoRef where
  geodetic_to_cartesian := fun v => v
  cartesian_to_geodetic := fun v => v
  point_to_lonlat := fun q => q
  lonlat_to_point := fun q => q

/-- The CsvConv for descriptor "1:x 2:y 3:z". -/
def xyzConv : CsvConv where
  format := CsvFormat.XYZ
  col2name := [(0, "x".data), (1, "y".data), (2, "z".data)]
  col2sort := [(0, 0), (1, 1), (2, 2)]
  num_targets := 3

/-- The CsvConv for descriptor "1:lon 2:lat 3:radius_km". -/
def lonLatRadiusKmConv : CsvConv where
  format := CsvFormat.LAT_LON_RADIUS_KM
  col2name := [(0, "lon".data), (1, "lat".data), (2, "radius_km".data)]
  col2sort := [(0, 0), (1, 1), (2, 2)]
  num_targets := 3

/-- The record parsed from the line "10 20 6.378". -/
def scenarioRecordB : CsvRecord :=
  ⟨fun n => if n = 0 then 10 else if n = 1 then 20 else if n = 2 then 6.378 else 0, []⟩

/-- A text environment where blanks separate tokens and a token scans as a
number exactly when it consists of digits. -/
def digitEnv : TextEnv where
  isSep := fun c => c = ' '
  scan := fun t => if !t.isEmpty && t.all (fun c => c.isDigit) then some 1 else none

/-- Scenario D raster: a 3-by-3 image whose center pixel is invalid and whose
other eight pixels all hold the value 10. -/
def scenarioImgD : ℤ → ℤ → Option ℚ := fun i j =>
  if i = 1 ∧ j = 1 then none
  else if 0 ≤ i ∧ i ≤ 2 ∧ 0 ≤ j ∧ j ≤ 2 then some 10 else none

/-- The shape of the col2sort map for a fully declared three-point-column
format: three entries whose sorted positions are a permutation of 0, 1, 2. -/
def SortPermOK (c2s : List (ℕ × ℕ)) : Prop :=
  match c2s with
  | [(_, i), (_, j), (_, k)] => i < 3 ∧ j < 3 ∧ k < 3 ∧ i ≠ j ∧ i ≠ k ∧ j ≠ k
  | _ => False

/-- The properties of the external geodesy and of the record that the round
trip depends on, per declared scheme: the datum conversions invert each other
at the point in question, the point's longitude lies within half a period of
the supplied mean longitude, and for the radius schemes the declared radius is
nonnegative, the zero-height ellipsoid point is away from the origin and the
reverse geodetic conversion of the radially rescaled point keeps the
longitude and latitude. -/
def RoundTripHyp (conv : CsvConv) (csv : CsvRecord) (geo : GeoRef) (mean : ℝ) : Prop :=
  let ord := sort_parsed_vector3 conv csv
  match conv.format with
  | CsvFormat.XYZ => True
  | CsvFormat.HEIGHT_LAT_LON =>
    geo.cartesian_to_geodetic (geo.geodetic_to_cartesian ord) = ord ∧ |mean - ord 0| < 180
  | CsvFormat.EASTING_HEIGHT_NORTHING =>
    let ll := geo.point_to_lonlat (ord 0, ord 1)
    let llh := vec3 ll.1 ll.2 (ord 2)
    geo.cartesian_to_geodetic (geo.geodetic_to_cartesian llh) = llh ∧
    geo.lonlat_to_point (ll.1, ll.2) = (ord 0, ord 1) ∧
    |mean - ll.1| < 180
  | _ =>
    let r := if conv.format = CsvFormat.LAT_LON_RADIUS_KM then 1000 * ord 2 else ord 2
    let v := geo.geodetic_to_cartesian (vec3 (ord 0) (ord 1) 0)
    let w : Vec3 := fun n => r * (v n / norm2 v)
    0 ≤ r ∧ 0 < norm2 v ∧
    geo.cartesian_to_geodetic w 0 = ord 0 ∧
    geo.cartesian_to_geodetic w 1 = ord 1 ∧
    |mean - ord 0| < 180

/-! Helper lemmas. -/

lemma csv_count_foldl (lines : List (List Char)) : ∀ n : ℕ,
    lines.foldl (fun n line => if is_valid_csv_line line then n + 1 else n) n =
      n + (lines.filter (fun l => decide (l ≠ [] ∧ l.head? ≠ some '#'))).length := by
  induction lines with
  | nil => intro n; simp
  | cons a t ih =>
    intro n
    have hval : is_valid_csv_line a = decide (a ≠ [] ∧ a.head? ≠ some '#') := by
      cases a with
      | nil => simp [is_valid_csv_line]
      | cons c cs =>
        by_cases h : c = '#'
        · subst h; simp [is_valid_csv_line, List.headD]
        · simp [is_valid_csv_line, List.headD, h]
    simp only [List.foldl_cons, List.filter_cons, hval]
    by_cases h : a ≠ [] ∧ a.head? ≠ some '#'
    · simp only [decide_eq_true h, if_pos]
      rw [ih]
      simp [Nat.add_assoc, Nat.add_comm 1]
    · simp only [decide_eq_false h, if_neg]
      rw [ih]
      simp

lemma le_mul_ceil_div (a b : ℕ) (hb : 0 < b) : a ≤ b * ceil_div a b := by
  rcases Nat.eq_zero_or_pos a with ha | ha
  · subst ha; simp
  · unfold ceil_div
    have hrw : a + b - 1 = (a - 1) + b := by omega
    rw [hrw, Nat.add_div_right _ hb, Nat.mul_add, Nat.mul_one]
    have h1 := Nat.div_add_mod (a - 1) b
    have h2 := Nat.mod_lt (a - 1) hb
    omega

lemma errorAccum_mem (vals : List ℚ) : ∀ (acc : List ℚ) (v : ℚ),
    v ∈ vals.foldl (fun acc v => if 0 < v then acc ++ [v] else acc) acc → v ∈ acc ∨ 0 < v := by
  induction vals with
  | nil => intro acc v h; exact Or.inl h
  | cons a t ih =>
    intro acc v h
    simp only [List.foldl_cons] at h
    rcases ih _ v h with h2 | h2
    · by_cases ha : 0 < a
      · rw [if_pos ha] at h2
        rcases List.mem_append.mp h2 with h3 | h3
        · exact Or.inl h3
        · simp only [List.mem_singleton] at h3; subst h3; exact Or.inr ha
      · rw [if_neg ha] at h2; exact Or.inl h2
    · exact Or.inr h2

/-! Claim theorems. -/

/-- C10: the point-count estimate of csv_file_size equals exactly the number
of lines that are non-empty and whose first character is not the comment
character; comment and blank lines never contribute. -/
theorem C10_csv_file_size_counts_valid_lines (lines : List (List Char)) :
    csv_file_size lines =
      (lines.filter (fun l => decide (l ≠ [] ∧ l.head? ≠ some '#'))).length := by
  unfold csv_file_size
  simpa using csv_count_foldl lines 0

/-- C8: the composite image extents: rows = T * max(1, ceil(R/T)) and
cols = T * max(1, ceil(ceil(N/rows)/T)); both are multiples of the tile
length, and rows * cols is at least the point count. -/
theorem C8_tif_extents (num_points num_rows tile_len : ℕ) (ht : 0 < tile_len) :
    tif_num_rows num_rows tile_len = tile_len * max 1 (ceil_div num_rows tile_len) ∧
    tif_num_cols num_points num_rows tile_len =
      tile_len * max 1 (ceil_div (ceil_div num_points (tif_num_rows num_rows tile_len)) tile_len) ∧
    tif_num_rows num_rows tile_len % tile_len = 0 ∧
    tif_num_cols num_points num_rows tile_len % tile_len = 0 ∧
    num_points ≤ tif_num_rows num_rows tile_len * tif_num_cols num_points num_rows tile_len := by
  refine ⟨rfl, rfl, Nat.mul_mod_right _ _, Nat.mul_mod_right _ _, ?_⟩
  have hR : 0 < tif_num_rows num_rows tile_len := by
    have h1 : tile_len * 1 ≤ tif_num_rows num_rows tile_len :=
      Nat.mul_le_mul_left _ (le_max_left _ _)
    omega
  have h1 : num_points ≤ tif_num_rows num_rows tile_len *
      ceil_div num_points (tif_num_rows num_rows tile_len) := le_mul_ceil_div _ _ hR
  have h2 : ceil_div num_points (tif_num_rows num_rows tile_len) ≤
      tif_num_cols num_points num_rows tile_len := by
    calc ceil_div num_points (tif_num_rows num_rows tile_len)
        ≤ tile_len * ceil_div (ceil_div num_points (tif_num_rows num_rows tile_len)) tile_len :=
          le_mul_ceil_div _ _ ht
      _ ≤ tif_num_cols num_points num_rows tile_len :=
          Nat.mul_le_mul_left _ (le_max_right _ _)
  calc num_points
      ≤ tif_num_rows num_rows tile_len * ceil_div num_points (tif_num_rows num_rows tile_len) :=
        h1
    _ ≤ tif_num_rows num_rows tile_len * tif_num_cols num_points num_rows tile_len :=
        Nat.mul_le_mul_left _ h2

theorem C8_witness : 0 < 10 ∧ 1003 ≤ tif_num_rows 25 10 * tif_num_cols 1003 25 10 :=
  ⟨by decide, (C8_tif_extents 1003 25 10 (by decide)).2.2.2.2⟩

/-- C6: every value entering the outlier sample set is strictly positive, and
no threshold is produced when the accumulated sample set is empty at every
density, including full density. -/
theorem C6_positive_samples_and_empty_failure :
    (∀ (vals : List ℚ) (v : ℚ), v ∈ errorAccumVals vals → 0 < v) ∧
    (∀ (sample : ℕ → List ℚ) (amt : ℕ → ℕ) (pct100 factor : ℚ) (counts : List ℕ),
      (∀ n, errorAccumVals (sample n) = []) →
      estimLoop sample amt pct100 factor counts = none) := by
  constructor
  · intro vals v h
    rcases errorAccum_mem vals [] v h with h2 | h2
    · simp at h2
    · exact h2
  · intro sample amt pct100 factor counts hempty
    induction counts with
    | nil => rfl
    | cons c cs ih =>
      simp only [estimLoop, hempty (amt c), List.length_nil]
      norm_num
      intro _
      exact ih

theorem C6_witness :
    (0:ℚ) < 3 ∧ estimLoop (fun _ => [0]) (fun _ => 1) 75 3 estimCounts = none :=
  ⟨C6_positive_samples_and_empty_failure.1 [-1, 3] 3 (by decide),
    C6_positive_samples_and_empty_failure.2 _ _ _ _ _ (fun _ => by decide)⟩

/-- C1: for a nonzero sorted sample set the outlier estimator returns
sorted[k] * factor * 4 with k = min(L-1, floor(p/100 * L)); in particular the
samples [0,0,2,4,6,8,10] with percentile 75 and factor 3 give threshold 96. -/
theorem C1_outlier_threshold (vals : List ℚ) (p f : ℚ)
    (hs : vals.Sorted (· ≤ ·)) (hne : vals ≠ []) (hp0 : 0 < p) (_hp1 : p ≤ 100) :
    errorRangeEstimValue vals p f =
      some (vals.getD (min (vals.length - 1) (⌊p / 100 * (vals.length : ℚ)⌋).toNat) 0 * f * 4) ∧
    errorRangeEstimValue (errorAccumVals [0, 0, 2, 4, 6, 8, 10]) 75 3 = some 96 := by
  constructor
  · unfold errorRangeEstimValue
    rw [if_neg (by simpa using hne)]
    rw [List.Sorted.insertionSort_eq hs]
    have hL : 1 ≤ vals.length := List.length_pos.mpr hne
    have hfl : 0 ≤ ⌊p / 100 * (vals.length : ℚ)⌋ := by
      apply Int.floor_nonneg.mpr
      apply mul_nonneg
      · positivity
      · positivity
    have key : (min ((vals.length : ℤ) - 1) ⌊p / 100 * (vals.length : ℚ)⌋).toNat
        = min (vals.length - 1) (⌊p / 100 * (vals.length : ℚ)⌋).toNat := by
      rcases le_total ((vals.length : ℤ) - 1) ⌊p / 100 * (vals.length : ℚ)⌋ with h | h
      · rw [min_eq_left h, min_eq_left (by omega)]
        omega
      · rw [min_eq_right h, min_eq_right (by omega)]
    simp only [Int.cast_natCast, key]
  · have hacc : errorAccumVals [0, 0, 2, 4, 6, 8, 10] = [2, 4, 6, 8, 10] := by
      norm_num [errorAccumVals]
    rw [hacc]
    have hsorted : List.insertionSort (· ≤ ·) [(2:ℚ), 4, 6, 8, 10] = [2, 4, 6, 8, 10] := by
      apply List.Sorted.insertionSort_eq
      norm_num [List.Sorted]
    have hfl : (⌊(75:ℚ) / 100 * (5:ℚ)⌋ : ℤ) = 3 := by
      rw [show (75:ℚ) / 100 * 5 = 3 + 3/4 by norm_num, Int.floor_eq_iff]
      norm_num
    have hgetD : ([2, 4, 6, 8, 10] : List ℚ)[Int.toNat 3] = 8 := rfl
    norm_num [errorRangeEstimValue, hsorted, hfl, hgetD]

theorem C1_witness :
    ([1, 2, 3] : List ℚ).Sorted (· ≤ ·) ∧ ([1, 2, 3] : List ℚ) ≠ [] ∧
    (0:ℚ) < 75 ∧ (75:ℚ) ≤ 100 ∧
    errorRangeEstimValue [1, 2, 3] 75 2 =
      some (([1, 2, 3] : List ℚ).getD
        (min (([1, 2, 3] : List ℚ).length - 1)
          (⌊(75:ℚ) / 100 * (([1, 2, 3] : List ℚ).length : ℚ)⌋).toNat) 0 * 2 * 4) :=
  ⟨by decide, by decide, by decide, by decide,
    (C1_outlier_threshold [1, 2, 3] 75 2 (by decide) (by decide) (by decide) (by decide)).1⟩

/-- C7: the hole filler leaves valid cells unchanged; a nodata cell becomes
the average of the valid cells in the clipped window when one exists and stays
nodata otherwise; the isolated-hole scenario with window 3 fills with 10. -/
theorem C7_fill_nodata (img : ℤ → ℤ → Option ℚ) (nc nr : ℤ) (k : ℕ) (i j : ℤ) (v : ℚ)
    (_hk : k % 2 = 1) :
    (img i j = some v → FillNoDataWithAvg img nc nr k i j = some v) ∧
    (img i j = none → windowValidCells img nc nr k i j ≠ [] →
      FillNoDataWithAvg img nc nr k i j =
        some ((windowValidCells img nc nr k i j).sum /
          ((windowValidCells img nc nr k i j).length : ℚ))) ∧
    (img i j = none → windowValidCells img nc nr k i j = [] →
      FillNoDataWithAvg img nc nr k i j = none) ∧
    FillNoDataWithAvg scenarioImgD 3 3 3 1 1 = some 10 := by
  refine ⟨?_, ?_, ?_, ?_⟩
  · intro h; unfold FillNoDataWithAvg; rw [h]
  · intro h hne
    unfold FillNoDataWithAvg
    rw [h]
    simp only [List.length_eq_zero]
    rw [if_neg hne]
  · intro h hemp
    unfold FillNoDataWithAvg
    rw [h]
    simp only [List.length_eq_zero]
    rw [if_pos hemp]
  · have himg : scenarioImgD 1 1 = none := by decide
    have hcells : windowValidCells scenarioImgD 3 3 3 1 1 =
        [10, 10, 10, 10, 10, 10, 10, 10] := by decide
    simp only [FillNoDataWithAvg, himg, hcells]
    norm_num

theorem C7_witness :
    (3 % 2 = 1) ∧ scenarioImgD 0 0 = some 10 ∧
    FillNoDataWithAvg scenarioImgD 3 3 3 0 0 = some 10 :=
  ⟨by decide, by decide, (C7_fill_nodata scenarioImgD 3 3 3 0 0 10 (by decide)).1 (by decide)⟩

/-! Geometry helper lemmas for C2 and C3. -/

lemma vec3_zero (a b c : ℝ) : vec3 a b c 0 = a := rfl

lemma vec3_one (a b c : ℝ) : vec3 a b c 1 = b := rfl

lemma vec3_two (a b c : ℝ) : vec3 a b c 2 = c := rfl

lemma rescale_norm (v : Vec3) (r : ℝ) (hr : 0 ≤ r) (hv : 0 < norm2 v) :
    norm2 (fun n => r * (v n / norm2 v)) = r := by
  have hS : 0 ≤ v 0 ^ 2 + v 1 ^ 2 + v 2 ^ 2 := by positivity
  have hN2 : norm2 v ^ 2 = v 0 ^ 2 + v 1 ^ 2 + v 2 ^ 2 := Real.sq_sqrt hS
  have hNne : norm2 v ≠ 0 := ne_of_gt hv
  have hbeta : norm2 (fun n => r * (v n / norm2 v))
      = Real.sqrt ((r * (v 0 / norm2 v)) ^ 2 + (r * (v 1 / norm2 v)) ^ 2 +
          (r * (v 2 / norm2 v)) ^ 2) := rfl
  have harg : (r * (v 0 / norm2 v)) ^ 2 + (r * (v 1 / norm2 v)) ^ 2 + (r * (v 2 / norm2 v)) ^ 2
      = r ^ 2 := by
    have hexp : (r * (v 0 / norm2 v)) ^ 2 + (r * (v 1 / norm2 v)) ^ 2 +
        (r * (v 2 / norm2 v)) ^ 2
        = r ^ 2 * ((v 0 ^ 2 + v 1 ^ 2 + v 2 ^ 2) / norm2 v ^ 2) := by ring
    rw [hexp, ← hN2, div_self (pow_ne_zero 2 hNne), mul_one]
  rw [hbeta, harg, Real.sqrt_sq hr]

lemma cround_eq_zero (x : ℝ) (h : |x| < 1 / 2) : cround x = 0 := by
  rcases abs_lt.mp h with ⟨h1, h2⟩
  unfold cround
  by_cases h0 : 0 ≤ x
  · rw [if_pos h0]
    rw [Int.floor_eq_zero_iff]
    constructor
    · linarith
    · simpa using by linarith
  · rw [if_neg h0]
    have hz : ⌊-x + 1 / 2⌋ = 0 := by
      rw [Int.floor_eq_zero_iff]
      constructor
      · linarith
      · simpa using by linarith
    rw [hz]
    ring

lemma lon_adjust_eq (lon mean : ℝ) (h : |mean - lon| < 180) :
    lon + 360 * (cround ((mean - lon) / 360) : ℝ) = lon := by
  have h2 : |(mean - lon) / 360| < 1 / 2 := by
    rw [abs_div, abs_of_pos (by norm_num : (0:ℝ) < 360),
      div_lt_iff₀ (by norm_num : (0:ℝ) < 360)]
    linarith
  rw [cround_eq_zero _ h2]
  norm_num

/-! Branch evaluation lemmas for the conversions. -/

lemma csv_to_cartesian_xyz (conv : CsvConv) (csv : CsvRecord) (geo : GeoRef)
    (h : conv.format = CsvFormat.XYZ) :
    csv_to_cartesian conv csv geo = sort_parsed_vector3 conv csv := by
  unfold csv_to_cartesian
  rw [h]
  rfl

lemma csv_to_cartesian_hll (conv : CsvConv) (csv : CsvRecord) (geo : GeoRef)
    (h : conv.format = CsvFormat.HEIGHT_LAT_LON) :
    csv_to_cartesian conv csv geo
      = geo.geodetic_to_cartesian (sort_parsed_vector3 conv csv) := by
  unfold csv_to_cartesian
  rw [h]
  rfl

lemma csv_to_cartesian_rm (conv : CsvConv) (csv : CsvRecord) (geo : GeoRef)
    (h : conv.format = CsvFormat.LAT_LON_RADIUS_M) :
    csv_to_cartesian conv csv geo
      = fun n => sort_parsed_vector3 conv csv 2 *
          (geo.geodetic_to_cartesian
              (vec3 (sort_parsed_vector3 conv csv 0) (sort_parsed_vector3 conv csv 1) 0) n /
            norm2 (geo.geodetic_to_cartesian
              (vec3 (sort_parsed_vector3 conv csv 0) (sort_parsed_vector3 conv csv 1) 0))) := by
  unfold csv_to_cartesian
  rw [h]
  rfl

lemma csv_to_cartesian_rkm (conv : CsvConv) (csv : CsvRecord) (geo : GeoRef)
    (h : conv.format = CsvFormat.LAT_LON_RADIUS_KM) :
    csv_to_cartesian conv csv geo
      = fun n => 1000 * sort_parsed_vector3 conv csv 2 *
          (geo.geodetic_to_cartesian
              (vec3 (sort_parsed_vector3 conv csv 0) (sort_parsed_vector3 conv csv 1) 0) n /
            norm2 (geo.geodetic_to_cartesian
              (vec3 (sort_parsed_vector3 conv csv 0) (sort_parsed_vector3 conv csv 1) 0))) := by
  unfold csv_to_cartesian
  rw [h]
  rfl

lemma csv_to_cartesian_enh (conv : CsvConv) (csv : CsvRecord) (geo : GeoRef)
    (h : conv.format = CsvFormat.EASTING_HEIGHT_NORTHING) :
    csv_to_cartesian conv csv geo
      = geo.geodetic_to_cartesian
          (vec3 (geo.point_to_lonlat
              (sort_parsed_vector3 conv csv 0, sort_parsed_vector3 conv csv 1)).1
            (geo.point_to_lonlat
              (sort_parsed_vector3 conv csv 0, sort_parsed_vector3 conv csv 1)).2
            (sort_parsed_vector3 conv csv 2)) := by
  unfold csv_to_cartesian
  rw [h]
  rfl

lemma cartesian_to_csv_xyz (conv : CsvConv) (x : Vec3) (geo : GeoRef) (mean : ℝ)
    (h : conv.format = CsvFormat.XYZ) :
    cartesian_to_csv conv x geo mean = unsort_vector3 conv x := by
  unfold cartesian_to_csv
  rw [h]
  rfl

lemma cartesian_to_csv_hll (conv : CsvConv) (x : Vec3) (geo : GeoRef) (mean : ℝ)
    (h : conv.format = CsvFormat.HEIGHT_LAT_LON) :
    cartesian_to_csv conv x geo mean
      = unsort_vector3 conv
          (Function.update (geo.cartesian_to_geodetic x) 0
            (geo.cartesian_to_geodetic x 0 +
              360 * (cround ((mean - geo.cartesian_to_geodetic x 0) / 360) : ℝ))) := by
  unfold cartesian_to_csv
  rw [h]
  rfl

lemma cartesian_to_csv_rm (conv : CsvConv) (x : Vec3) (geo : GeoRef) (mean : ℝ)
    (h : conv.format = CsvFormat.LAT_LON_RADIUS_M) :
    cartesian_to_csv conv x geo mean
      = unsort_vector3 conv
          (Function.update
            (Function.update (geo.cartesian_to_geodetic x) 0
              (geo.cartesian_to_geodetic x 0 +
                360 * (cround ((mean - geo.cartesian_to_geodetic x 0) / 360) : ℝ)))
            2 (norm2 x)) := by
  unfold cartesian_to_csv
  rw [h]
  rfl

lemma cartesian_to_csv_rkm (conv : CsvConv) (x : Vec3) (geo : GeoRef) (mean : ℝ)
    (h : conv.format = CsvFormat.LAT_LON_RADIUS_KM) :
    cartesian_to_csv conv x geo mean
      = unsort_vector3 conv
          (Function.update
            (Function.update (geo.cartesian_to_geodetic x) 0
              (geo.cartesian_to_geodetic x 0 +
                360 * (cround ((mean - geo.cartesian_to_geodetic x 0) / 360) : ℝ)))
            2 (norm2 x / 1000)) := by
  unfold cartesian_to_csv
  rw [h]
  rfl

lemma cartesian_to_csv_enh (conv : CsvConv) (x : Vec3) (geo : GeoRef) (mean : ℝ)
    (h : conv.format = CsvFormat.EASTING_HEIGHT_NORTHING) :
    cartesian_to_csv conv x geo mean
      = unsort_vector3 conv
          (vec3
            (geo.lonlat_to_point
              (geo.cartesian_to_geodetic x 0 +
                360 * (cround ((mean - geo.cartesian_to_geodetic x 0) / 360) : ℝ),
               geo.cartesian_to_geodetic x 1)).1
            (geo.lonlat_to_point
              (geo.cartesian_to_geodetic x 0 +
                360 * (cround ((mean - geo.cartesian_to_geodetic x 0) / 360) : ℝ),
               geo.cartesian_to_geodetic x 1)).2
            (geo.cartesian_to_geodetic x 2)) := by
  unfold cartesian_to_csv
  rw [h]
  rfl

lemma sort_eval (conv : CsvConv) (csv : CsvRecord) (a b c i j k : ℕ)
    (hcs : conv.col2sort = [(a, i), (b, j), (c, k)])
    (hi : i < 3) (hj : j < 3) (hk : k < 3) :
    sort_parsed_vector3 conv csv
      = Function.update (Function.update (Function.update (fun _ => 0) i (csv.point_data 0)) j
          (csv.point_data 1)) k (csv.point_data 2) := by
  unfold sort_parsed_vector3
  rw [hcs]
  simp [sortAux, hi, hj, hk]

lemma unsort_eval (conv : CsvConv) (v : Vec3) (a b c i j k : ℕ)
    (hcs : conv.col2sort = [(a, i), (b, j), (c, k)])
    (hi : i < 3) (hj : j < 3) (hk : k < 3) :
    unsort_vector3 conv v
      = Function.update (Function.update (Function.update (fun _ => 0) 0 (v i)) 1 (v j)) 2
          (v k) := by
  unfold unsort_vector3
  rw [hcs]
  simp [unsortAux, hi, hj, hk]

lemma unsort_components (conv : CsvConv) (x : Vec3) (a b c i j k : ℕ)
    (hcs : conv.col2sort = [(a, i), (b, j), (c, k)])
    (hi : i < 3) (hj : j < 3) (hk : k < 3) :
    unsort_vector3 conv x 0 = x i ∧ unsort_vector3 conv x 1 = x j ∧
      unsort_vector3 conv x 2 = x k := by
  rw [unsort_eval conv x a b c i j k hcs hi hj hk]
  refine ⟨?_, ?_, ?_⟩ <;> simp [Function.update_apply]

/-- C2: a record in a lon/lat/radius scheme converts forward to a Cartesian
vector whose magnitude is the declared radius (in meters, after the km
conversion when declared in km); in particular the record "10 20 6.378" under
"1:lon 2:lat 3:radius_km" has magnitude 6378 meters. -/
theorem C2_radius_magnitude (conv : CsvConv) (csv : CsvRecord) (geo : GeoRef)
    (hfmt : conv.format = CsvFormat.LAT_LON_RADIUS_M ∨
      conv.format = CsvFormat.LAT_LON_RADIUS_KM)
    (hr : 0 ≤ (if conv.format = CsvFormat.LAT_LON_RADIUS_KM then
        1000 * sort_parsed_vector3 conv csv 2 else sort_parsed_vector3 conv csv 2))
    (hg : 0 < norm2 (geo.geodetic_to_cartesian
        (vec3 (sort_parsed_vector3 conv csv 0) (sort_parsed_vector3 conv csv 1) 0))) :
    norm2 (csv_to_cartesian conv csv geo)
      = (if conv.format = CsvFormat.LAT_LON_RADIUS_KM then
          1000 * sort_parsed_vector3 conv csv 2 else sort_parsed_vector3 conv csv 2) ∧
    (∀ geo2 : GeoRef, 0 < norm2 (geo2.geodetic_to_cartesian (vec3 10 20 0)) →
      norm2 (csv_to_cartesian lonLatRadiusKmConv scenarioRecordB geo2) = 6378) := by
  constructor
  · rcases hfmt with hf | hf
    · rw [csv_to_cartesian_rm conv csv geo hf, if_neg (by simp [hf])]
      exact rescale_norm _ _ (by simpa [hf] using hr) hg
    · rw [csv_to_cartesian_rkm conv csv geo hf, if_pos hf]
      exact rescale_norm _ _ (by simpa [hf] using hr) hg
  · intro geo2 hg2
    have h0 : sort_parsed_vector3 lonLatRadiusKmConv scenarioRecordB 0 = 10 := rfl
    have h1 : sort_parsed_vector3 lonLatRadiusKmConv scenarioRecordB 1 = 20 := rfl
    have h2 : sort_parsed_vector3 lonLatRadiusKmConv scenarioRecordB 2 = 6.378 := rfl
    rw [csv_to_cartesian_rkm lonLatRadiusKmConv scenarioRecordB geo2 rfl, h0, h1, h2]
    rw [rescale_norm _ _ (by norm_num) hg2]
    norm_num

theorem C2_witness :
    0 < norm2 (constGeo.geodetic_to_cartesian (vec3 10 20 0)) ∧
    norm2 (csv_to_cartesian lonLatRadiusKmConv scenarioRecordB constGeo) = 6378 := by
  have hpos : 0 < norm2 (constGeo.geodetic_to_cartesian (vec3 10 20 0)) := by
    have hval : norm2 (constGeo.geodetic_to_cartesian (vec3 10 20 0)) = Real.sqrt 1 := by
      simp [constGeo, norm2, vec3]
    rw [hval, Real.sqrt_one]
    norm_num
  have hr : 0 ≤ (if lonLatRadiusKmConv.format = CsvFormat.LAT_LON_RADIUS_KM then
      1000 * sort_parsed_vector3 lonLatRadiusKmConv scenarioRecordB 2
      else sort_parsed_vector3 lonLatRadiusKmConv scenarioRecordB 2) := by
    have h2 : sort_parsed_vector3 lonLatRadiusKmConv scenarioRecordB 2 = 6.378 := rfl
    rw [h2]
    norm_num [lonLatRadiusKmConv]
  have hg : 0 < norm2 (constGeo.geodetic_to_cartesian
      (vec3 (sort_parsed_vector3 lonLatRadiusKmConv scenarioRecordB 0)
        (sort_parsed_vector3 lonLatRadiusKmConv scenarioRecordB 1) 0)) := hpos
  exact ⟨hpos,
    (C2_radius_magnitude lonLatRadiusKmConv scenarioRecordB constGeo (Or.inr rfl)
      hr hg).2 constGeo hpos⟩

/-- C3: for every supported coordinate scheme, converting a record forward to
Cartesian and back (with the longitude renormalized toward the supplied mean
longitude by whole multiples of 360 degrees, and the original column order
restored) returns the original record values, given that the external datum
conversions invert each other at the point in question. -/
theorem C3_round_trip (conv : CsvConv) (csv : CsvRecord) (geo : GeoRef) (mean : ℝ)
    (hperm : SortPermOK conv.col2sort)
    (hgeo : RoundTripHyp conv csv geo mean) :
    ∀ m : ℕ, m < 3 →
      cartesian_to_csv conv (csv_to_cartesian conv csv geo) geo mean m
        = csv.point_data m := by
  rcases hcs0 : conv.col2sort with _ | ⟨⟨a, i⟩, rest1⟩
  · rw [hcs0] at hperm; exact absurd hperm (by simp [SortPermOK])
  rcases rest1 with _ | ⟨⟨b, j⟩, rest2⟩
  · rw [hcs0] at hperm; exact absurd hperm (by simp [SortPermOK])
  rcases rest2 with _ | ⟨⟨c, k⟩, rest3⟩
  · rw [hcs0] at hperm; exact absurd hperm (by simp [SortPermOK])
  rcases rest3 with _ | ⟨e, rest4⟩
  swap
  · rw [hcs0] at hperm; exact absurd hperm (by simp [SortPermOK])
  rw [hcs0] at hperm
  simp only [SortPermOK] at hperm
  obtain ⟨hi, hj, hk, hij, hik, hjk⟩ := hperm
  have hsort := sort_eval conv csv a b c i j k hcs0 hi hj hk
  have hoi : sort_parsed_vector3 conv csv i = csv.point_data 0 := by
    rw [hsort]; simp [Function.update_apply, hij, hik]
  have hoj : sort_parsed_vector3 conv csv j = csv.point_data 1 := by
    rw [hsort]; simp [Function.update_apply, hjk]
  have hok : sort_parsed_vector3 conv csv k = csv.point_data 2 := by
    rw [hsort]; simp [Function.update_apply]
  have hfin : ∀ x : Vec3, (∀ n, n < 3 → x n = sort_parsed_vector3 conv csv n) →
      ∀ m, m < 3 → unsort_vector3 conv x m = csv.point_data m := by
    intro x hx m hm
    have hu := unsort_components conv x a b c i j k hcs0 hi hj hk
    interval_cases m
    · rw [hu.1, hx i hi, hoi]
    · rw [hu.2.1, hx j hj, hoj]
    · rw [hu.2.2, hx k hk, hok]
  rcases hfmt : conv.format with _ | _ | _ | _ | _
  -- XYZ
  · rw [cartesian_to_csv_xyz conv _ geo mean hfmt, csv_to_cartesian_xyz conv csv geo hfmt]
    exact hfin _ (fun n _ => rfl)
  -- HEIGHT_LAT_LON
  · simp [RoundTripHyp, hfmt] at hgeo
    obtain ⟨hinv, hmean⟩ := hgeo
    rw [cartesian_to_csv_hll conv _ geo mean hfmt, csv_to_cartesian_hll conv csv geo hfmt,
      hinv, lon_adjust_eq _ _ hmean, Function.update_eq_self]
    exact hfin _ (fun n _ => rfl)
  -- LAT_LON_RADIUS_M
  · simp [RoundTripHyp, hfmt] at hgeo
    obtain ⟨hr, hv, hlon, hlat, hmean⟩ := hgeo
    rw [cartesian_to_csv_rm conv _ geo mean hfmt, csv_to_cartesian_rm conv csv geo hfmt]
    refine hfin _ ?_
    intro n hn
    interval_cases n
    · rw [Function.update_noteq (by norm_num : (0:ℕ) ≠ 2), Function.update_same, hlon,
        lon_adjust_eq _ _ hmean]
    · rw [Function.update_noteq (by norm_num : (1:ℕ) ≠ 2),
        Function.update_noteq (by norm_num : (1:ℕ) ≠ 0), hlat]
    · rw [Function.update_same, rescale_norm _ _ hr hv]
  -- LAT_LON_RADIUS_KM
  · simp [RoundTripHyp, hfmt] at hgeo
    obtain ⟨hr, hv, hlon, hlat, hmean⟩ := hgeo
    rw [cartesian_to_csv_rkm conv _ geo mean hfmt, csv_to_cartesian_rkm conv csv geo hfmt]
    refine hfin _ ?_
    intro n hn
    interval_cases n
    · rw [Function.update_noteq (by norm_num : (0:ℕ) ≠ 2), Function.update_same, hlon,
        lon_adjust_eq _ _ hmean]
    · rw [Function.update_noteq (by norm_num : (1:ℕ) ≠ 2),
        Function.update_noteq (by norm_num : (1:ℕ) ≠ 0), hlat]
    · rw [Function.update_same,
        rescale_norm _ (1000 * sort_parsed_vector3 conv csv 2)
          (mul_nonneg (by norm_num) hr) hv]
      exact mul_div_cancel_left₀ _ (by norm_num)
  -- EASTING_HEIGHT_NORTHING
  · simp [RoundTripHyp, hfmt] at hgeo
    obtain ⟨hinv, hlp, hmean⟩ := hgeo
    rw [cartesian_to_csv_enh conv _ geo mean hfmt, csv_to_cartesian_enh conv csv geo hfmt,
      hinv]
    rw [vec3_zero, vec3_one, vec3_two, lon_adjust_eq _ _ hmean, hlp]
    refine hfin _ ?_
    intro n hn
    interval_cases n
    · rw [vec3_zero]
    · rw [vec3_one]
    · rw [vec3_two]

theorem C3_witness :
    SortPermOK xyzConv.col2sort ∧ RoundTripHyp xyzConv scenarioRecordB idGeo 0 ∧
    cartesian_to_csv xyzConv (csv_to_cartesian xyzConv scenarioRecordB idGeo) idGeo 0 1
      = scenarioRecordB.point_data 1 :=
  ⟨by simp [SortPermOK, xyzConv], by simp [RoundTripHyp, xyzConv],
    C3_round_trip xyzConv scenarioRecordB idGeo 0 (by simp [SortPermOK, xyzConv])
      (by simp [RoundTripHyp, xyzConv]) 1 (by norm_num)⟩

/-- C4: a parse failure on the first line of a text source is silent and
parsing is retried exactly once on the next line; a parse failure on any line
other than the first (including the retry line itself) raises the fatal
error for the whole source. -/
theorem C4_header_retry (env : TextEnv) (conv : CsvConv) (geo : GeoRef)
    (l1 l2 : List Char) (rest : List (List Char))
    (h1 : parse_success env conv l1 = false)
    (h2 : parse_success env conv l2 = true) :
    ReadNextPoint env conv geo ⟨l1 :: l2 :: rest, true⟩
      = .ok (some (csv_to_cartesian_or_point_height conv
          (parse_csv_line_raw env conv l2).1 geo true), ⟨rest, false⟩) ∧
    (∀ (l : List Char) (rest2 : List (List Char)), parse_success env conv l = false →
      ReadNextPoint env conv geo ⟨l :: rest2, false⟩ = .error "Failed to read line") ∧
    (∀ (l : List Char) (rest2 : List (List Char)), parse_success env conv l = false →
      ReadNextPoint env conv geo ⟨l1 :: l :: rest2, true⟩
        = .error "Failed to read line") := by
  refine ⟨?_, ?_, ?_⟩
  · simp [ReadNextPoint, parse_csv_line, h1, h2]
  · intro l rest2 hl
    simp [ReadNextPoint, parse_csv_line, hl]
  · intro l rest2 hl
    simp [ReadNextPoint, parse_csv_line, h1, hl]

theorem C4_witness :
    parse_success digitEnv xyzConv ("x y z".data) = false ∧
    parse_success digitEnv xyzConv ("1 2 3".data) = true ∧
    ReadNextPoint digitEnv xyzConv idGeo ⟨["x y z".data, "1 2 3".data], true⟩
      = .ok (some (csv_to_cartesian_or_point_height xyzConv
          (parse_csv_line_raw digitEnv xyzConv ("1 2 3".data)).1 idGeo true),
          ⟨[], false⟩) :=
  ⟨by decide, by decide,
    (C4_header_retry digitEnv xyzConv idGeo ("x y z".data) ("1 2 3".data) []
      (by decide) (by decide)).1⟩

/-! Lemmas about the declared-column association list and the token loop. -/

lemma lookupCol_none (cols : List (ℕ × List Char)) (p : ℕ)
    (h : lookupCol cols p = none) : ∀ e ∈ cols, e.1 ≠ p := by
  induction cols with
  | nil => intro e he; simp at he
  | cons hd tl ih =>
    obtain ⟨c, n⟩ := hd
    simp only [lookupCol] at h
    by_cases hc : c = p
    · rw [if_pos hc] at h; exact absurd h (by simp)
    · rw [if_neg hc] at h
      intro e he
      rcases List.mem_cons.mp he with he1 | he2
      · rw [he1]; exact hc
      · exact ih h e he2

lemma lookupCol_none_of_forall (cols : List (ℕ × List Char)) (p : ℕ)
    (h : ∀ e ∈ cols, e.1 ≠ p) : lookupCol cols p = none := by
  induction cols with
  | nil => rfl
  | cons hd tl ih =>
    obtain ⟨c, n⟩ := hd
    simp only [lookupCol]
    rw [if_neg (h (c, n) (List.mem_cons_self _ _))]
    exact ih (fun e he => h e (List.mem_cons_of_mem _ he))

lemma lookupCol_some_filter (cols : List (ℕ × List Char)) (p : ℕ) (name : List Char)
    (hsort : cols.Pairwise (fun e1 e2 => e1.1 < e2.1))
    (h : lookupCol cols p = some name) :
    cols.filter (fun e => p ≤ e.1) = (p, name) :: cols.filter (fun e => p + 1 ≤ e.1) := by
  induction cols with
  | nil => simp [lookupCol] at h
  | cons hd tl ih =>
    obtain ⟨c, n⟩ := hd
    rw [List.pairwise_cons] at hsort
    obtain ⟨hlt, htl⟩ := hsort
    simp only [lookupCol] at h
    by_cases hc : c = p
    · rw [if_pos hc] at h
      injection h with hname
      subst hc
      subst hname
      have hskip : tl.filter (fun e => decide (c ≤ e.1))
          = tl.filter (fun e => decide (c + 1 ≤ e.1)) := by
        apply List.filter_congr
        intro e he
        have := hlt e he
        simp only [decide_eq_decide]
        omega
      have h1 : c ≤ c := le_refl c
      have h2 : ¬ (c + 1 ≤ c) := by omega
      simp [List.filter_cons, h1, h2, hskip]
    · rw [if_neg hc] at h
      rcases Nat.lt_or_ge c p with hlt2 | hge
      · have h1 : ¬ (p ≤ c) := by omega
        have h2 : ¬ (p + 1 ≤ c) := by omega
        simp only [List.filter_cons, decide_eq_true_eq, if_neg h1, if_neg h2]
        exact ih htl h
      · exfalso
        have hgt : p < c := by omega
        have hnone : lookupCol tl p = none :=
          lookupCol_none_of_forall tl p (fun e he => by have := hlt e he; omega)
        rw [hnone] at h
        exact absurd h (by simp)

lemma shifted_cond_iff (scan : List Char → Option ℝ) (tok : List Char)
    (ts : List (List Char)) (p : ℕ) (F : List (ℕ × List Char))
    (hF : ∀ e ∈ F, p + 1 ≤ e.1) :
    (∀ e ∈ F, e.1 - (p + 1) < ts.length ∧
        (e.2 ≠ "file".data → (scan (ts.getD (e.1 - (p + 1)) [])).isSome = true)) ↔
    (∀ e ∈ F, e.1 - p < (tok :: ts).length ∧
        (e.2 ≠ "file".data → (scan ((tok :: ts).getD (e.1 - p) [])).isSome = true)) := by
  apply forall₂_congr
  intro e he
  have hpe := hF e he
  have hidx : e.1 - p = (e.1 - (p + 1)) + 1 := by omega
  rw [hidx, List.getD_cons_succ, List.length_cons]
  constructor
  · rintro ⟨hl, hs⟩; exact ⟨by omega, hs⟩
  · rintro ⟨hl, hs⟩; exact ⟨by omega, hs⟩

lemma parseTokens_ok_iff (scan : List Char → Option ℝ) (conv : CsvConv)
    (hsort : conv.col2name.Pairwise (fun e1 e2 => e1.1 < e2.1)) :
    ∀ (ts : List (List Char)) (p nVals nFloats : ℕ) (rec : CsvRecord),
      nVals + (conv.col2name.filter (fun e => p ≤ e.1)).length = conv.num_targets →
      (((parseTokens scan conv ts p nVals nFloats rec).2.2 = true ∧
        (parseTokens scan conv ts p nVals nFloats rec).2.1 = conv.num_targets) ↔
        ∀ e ∈ conv.col2name.filter (fun e => p ≤ e.1),
          e.1 - p < ts.length ∧
          (e.2 ≠ "file".data → (scan (ts.getD (e.1 - p) [])).isSome = true)) := by
  intro ts
  induction ts with
  | nil =>
    intro p nVals nFloats rec hn
    simp only [parseTokens, List.length_nil]
    constructor
    · rintro ⟨-, hlen⟩ e he
      have h0 : (conv.col2name.filter (fun e => p ≤ e.1)).length = 0 := by omega
      rw [List.length_eq_zero] at h0
      rw [h0] at he
      simp at he
    · intro hall
      refine ⟨trivial, ?_⟩
      rcases hF : conv.col2name.filter (fun e => p ≤ e.1) with _ | ⟨e, F2⟩
      · rw [hF] at hn
        simp at hn
        omega
      · exfalso
        have hmem := hall e (by rw [hF]; exact List.mem_cons_self _ _)
        simp at hmem
  | cons tok ts ih =>
    intro p nVals nFloats rec hn
    by_cases hbreak : conv.num_targets ≤ nVals
    · have hlen0 : (conv.col2name.filter (fun e => p ≤ e.1)).length = 0 := by omega
      have hF : conv.col2name.filter (fun e => p ≤ e.1) = [] := List.length_eq_zero.mp hlen0
      rw [hF]
      simp only [parseTokens, if_pos hbreak]
      simp only [List.not_mem_nil, false_implies, implies_true, iff_true]
      exact ⟨trivial, by omega⟩
    · rcases hlook : lookupCol conv.col2name p with _ | name
      · have hne := lookupCol_none conv.col2name p hlook
        have hshift : conv.col2name.filter (fun e => p ≤ e.1)
            = conv.col2name.filter (fun e => p + 1 ≤ e.1) := by
          apply List.filter_congr
          intro e he
          have := hne e he
          simp only [decide_eq_decide]
          omega
        simp only [parseTokens, if_neg hbreak, hlook]
        rw [hshift] at hn ⊢
        rw [ih (p + 1) nVals nFloats rec hn]
        apply shifted_cond_iff
        intro e he
        exact (List.mem_filter.mp he).2 |> of_decide_eq_true
      · have hsplit := lookupCol_some_filter conv.col2name p name hsort hlook
        by_cases hfile : name = "file".data
        · simp only [parseTokens, if_neg hbreak, hlook, if_pos hfile]
          have hn2 : (nVals + 1) +
              (conv.col2name.filter (fun e => p + 1 ≤ e.1)).length = conv.num_targets := by
            rw [hsplit] at hn
            simp only [List.length_cons] at hn
            omega
          rw [ih (p + 1) (nVals + 1) nFloats _ hn2, hsplit]
          rw [shifted_cond_iff scan tok ts p _
            (fun e he => (List.mem_filter.mp he).2 |> of_decide_eq_true)]
          constructor
          · intro hrest e he
            rcases List.mem_cons.mp he with he1 | he2
            · rw [he1]
              refine ⟨by simp, ?_⟩
              intro hne2
              exact absurd hfile hne2
            · exact hrest e he2
          · intro hall e he
            exact hall e (List.mem_cons_of_mem _ he)
        · rcases hscan : scan tok with _ | v
          · simp only [parseTokens, if_neg hbreak, hlook, if_neg hfile, hscan]
            constructor
            · rintro ⟨hfalse, -⟩
              exact absurd hfalse (by simp)
            · intro hall
              exfalso
              have hmem := hall (p, name) (by rw [hsplit]; exact List.mem_cons_self _ _)
              have := hmem.2 hfile
              rw [Nat.sub_self, List.getD_cons_zero, hscan] at this
              simp at this
          · simp only [parseTokens, if_neg hbreak, hlook, if_neg hfile, hscan]
            have hn2 : (nVals + 1) +
                (conv.col2name.filter (fun e => p + 1 ≤ e.1)).length = conv.num_targets := by
              rw [hsplit] at hn
              simp only [List.length_cons] at hn
              omega
            rw [ih (p + 1) (nVals + 1) (nFloats + 1) _ hn2, hsplit]
            rw [shifted_cond_iff scan tok ts p _
              (fun e he => (List.mem_filter.mp he).2 |> of_decide_eq_true)]
            constructor
            · intro hrest e he
              rcases List.mem_cons.mp he with he1 | he2
              · rw [he1]
                refine ⟨by simp, ?_⟩
                intro _
                rw [Nat.sub_self, List.getD_cons_zero, hscan]
                rfl
              · exact hrest e he2
            · intro hall e he
              exact hall e (List.mem_cons_of_mem _ he)

lemma parseTokens_fail_lt (scan : List Char → Option ℝ) (conv : CsvConv) :
    ∀ (ts : List (List Char)) (p nVals nFloats : ℕ) (rec : CsvRecord),
      nVals ≤ conv.num_targets →
      (parseTokens scan conv ts p nVals nFloats rec).2.2 = false →
      (parseTokens scan conv ts p nVals nFloats rec).2.1 < conv.num_targets := by
  intro ts
  induction ts with
  | nil =>
    intro p nVals nFloats rec h hf
    simp [parseTokens] at hf
  | cons tok ts ih =>
    intro p nVals nFloats rec h hf
    by_cases hbreak : conv.num_targets ≤ nVals
    · simp [parseTokens, if_pos hbreak] at hf
    · rcases hlook : lookupCol conv.col2name p with _ | name
      · simp only [parseTokens, if_neg hbreak, hlook] at hf ⊢
        exact ih (p + 1) nVals nFloats rec (by omega) hf
      · by_cases hfile : name = "file".data
        · simp only [parseTokens, if_neg hbreak, hlook, if_pos hfile] at hf ⊢
          exact ih (p + 1) (nVals + 1) nFloats _ (by omega) hf
        · rcases hscan : scan tok with _ | v
          · simp only [parseTokens, if_neg hbreak, hlook, if_neg hfile, hscan] at hf ⊢
            omega
          · simp only [parseTokens, if_neg hbreak, hlook, if_neg hfile, hscan] at hf ⊢
            exact ih (p + 1) (nVals + 1) (nFloats + 1) _ (by omega) hf

/-- C5: parsing a line fails exactly when the number of parsed fields differs
from the declared target count; equivalently, parsing succeeds exactly when
every declared column has a token at its position and every declared
non-identifier column's token scans as a number — extra undeclared trailing
fields never cause a failure. -/
theorem C5_parse_success_iff (env : TextEnv) (conv : CsvConv)
    (hsort : conv.col2name.Pairwise (fun e1 e2 => e1.1 < e2.1))
    (hlen : conv.num_targets = conv.col2name.length) (line : List Char) :
    (parse_success env conv line = true ↔
      ∀ e ∈ conv.col2name, e.1 < (strtokSplit env.isSep line).length ∧
        (e.2 ≠ "file".data →
          (env.scan ((strtokSplit env.isSep line).getD e.1 [])).isSome = true)) ∧
    (parse_success env conv line = true ↔
      (parse_csv_line_raw env conv line).2.1 = conv.num_targets) := by
  have hfilter : conv.col2name.filter (fun e => 0 ≤ e.1) = conv.col2name := by
    apply List.filter_eq_self.mpr
    intro e he
    simp
  have hn : 0 + (conv.col2name.filter (fun e => 0 ≤ e.1)).length = conv.num_targets := by
    rw [hfilter, hlen]
    omega
  have hmain := parseTokens_ok_iff env.scan conv hsort (strtokSplit env.isSep line)
    0 0 0 emptyRecord hn
  rw [hfilter] at hmain
  simp only [Nat.sub_zero] at hmain
  have hsucc : parse_success env conv line = true ↔
      ((parse_csv_line_raw env conv line).2.2 = true ∧
        (parse_csv_line_raw env conv line).2.1 = conv.num_targets) := by
    simp [parse_success]
  constructor
  · rw [hsucc]
    exact hmain
  · rw [hsucc]
    constructor
    · rintro ⟨-, hc⟩
      exact hc
    · intro hc
      refine ⟨?_, hc⟩
      by_contra hnot
      have hfalse : (parse_csv_line_raw env conv line).2.2 = false :=
        Bool.eq_false_iff.mpr hnot
      have hlt := parseTokens_fail_lt env.scan conv (strtokSplit env.isSep line)
        0 0 0 emptyRecord (by omega) hfalse
      have hlt2 : (parse_csv_line_raw env conv line).2.1 < conv.num_targets := hlt
      omega

theorem C5_witness :
    (xyzConv.col2name.Pairwise (fun e1 e2 => e1.1 < e2.1)) ∧
    xyzConv.num_targets = xyzConv.col2name.length ∧
    (parse_success digitEnv xyzConv ("1 2 3".data) = true ↔
      ∀ e ∈ xyzConv.col2name, e.1 < (strtokSplit digitEnv.isSep ("1 2 3".data)).length ∧
        (e.2 ≠ "file".data →
          (digitEnv.scan ((strtokSplit digitEnv.isSep ("1 2 3".data)).getD e.1 [])).isSome
            = true)) :=
  ⟨by decide, by decide,
    (C5_parse_success_iff digitEnv xyzConv (by decide) (by decide) ("1 2 3".data)).1⟩

/-! Lemmas about the format-descriptor validation pipeline. -/

lemma hasCol_mapInsert (k k2 : ℕ) (v : List Char) (m : List (ℕ × List Char))
    (lt : ℕ → ℕ → Bool) :
    hasCol k (mapInsert lt k2 v m) = true ↔ k = k2 ∨ hasCol k m = true := by
  induction m with
  | nil => simp [mapInsert, hasCol]
  | cons hd tl ih =>
    obtain ⟨kh, vh⟩ := hd
    simp only [mapInsert]
    by_cases h1 : lt k2 kh
    · rw [if_pos h1]
      simp only [hasCol, Bool.or_eq_true, beq_iff_eq]
      try tauto
    · rw [if_neg h1]
      by_cases h2 : k2 = kh
      · rw [if_pos h2]
        subst h2
        simp only [hasCol, Bool.or_eq_true, beq_iff_eq]
        try tauto
      · rw [if_neg h2]
        simp only [hasCol, Bool.or_eq_true, beq_iff_eq, ih]
        try tauto

lemma mapInsert_self_mem {α β : Type} [DecidableEq α] (lt : α → α → Bool) (k : α) (v : β)
    (m : List (α × β)) : (k, v) ∈ mapInsert lt k v m := by
  induction m with
  | nil => simp [mapInsert]
  | cons hd tl ih =>
    obtain ⟨kh, vh⟩ := hd
    simp only [mapInsert]
    by_cases h1 : lt k kh
    · rw [if_pos h1]; exact List.mem_cons_self _ _
    · rw [if_neg h1]
      by_cases h2 : k = kh
      · rw [if_pos h2]; exact List.mem_cons_self _ _
      · rw [if_neg h2]; exact List.mem_cons_of_mem _ ih

lemma mapInsert_key_preserved {α β : Type} [DecidableEq α] (lt : α → α → Bool)
    (k k2 : α) (v : β) (m : List (α × β)) :
    ∀ w, (k, w) ∈ m → ∃ w2, (k, w2) ∈ mapInsert lt k2 v m := by
  induction m with
  | nil => intro w h; simp at h
  | cons hd tl ih =>
    intro w h
    obtain ⟨kh, vh⟩ := hd
    simp only [mapInsert]
    by_cases h1 : lt k2 kh
    · rw [if_pos h1]
      exact ⟨w, List.mem_cons_of_mem _ h⟩
    · rw [if_neg h1]
      by_cases h2 : k2 = kh
      · rw [if_pos h2]
        rcases List.mem_cons.mp h with he | he
        · have hkk : k = k2 := by rw [h2]; exact congrArg Prod.fst he
          exact ⟨v, by rw [hkk]; exact List.mem_cons_self _ _⟩
        · exact ⟨w, List.mem_cons_of_mem _ he⟩
      · rw [if_neg h2]
        rcases List.mem_cons.mp h with he | he
        · exact ⟨w, by rw [he]; exact List.mem_cons_self _ _⟩
        · obtain ⟨w2, hw2⟩ := ih w he
          exact ⟨w2, List.mem_cons_of_mem _ hw2⟩

lemma mapInsert_mem_source {α β : Type} [DecidableEq α] (lt : α → α → Bool)
    (k k2 : α) (w v : β) (m : List (α × β)) (h : (k, w) ∈ mapInsert lt k2 v m) :
    k = k2 ∨ (k, w) ∈ m := by
  induction m with
  | nil =>
    simp [mapInsert] at h
    exact Or.inl h.1
  | cons hd tl ih =>
    obtain ⟨kh, vh⟩ := hd
    simp only [mapInsert] at h
    by_cases h1 : lt k2 kh
    · rw [if_pos h1] at h
      rcases List.mem_cons.mp h with he | he
      · exact Or.inl (congrArg Prod.fst he)
      · exact Or.inr he
    · rw [if_neg h1] at h
      by_cases h2 : k2 = kh
      · rw [if_pos h2] at h
        rcases List.mem_cons.mp h with he | he
        · exact Or.inl (congrArg Prod.fst he)
        · exact Or.inr (List.mem_cons_of_mem _ he)
      · rw [if_neg h2] at h
        rcases List.mem_cons.mp h with he | he
        · exact Or.inr (by rw [he]; exact List.mem_cons_self _ _)
        · rcases ih he with hl | hr
          · exact Or.inl hl
          · exact Or.inr (List.mem_cons_of_mem _ hr)

lemma buildMaps_ok_pos : ∀ (pairs : List (ℤ × List Char)) (n2c : List (List Char × ℕ))
    (c2n : List (ℕ × List Char)) (res : List (List Char × ℕ) × List (ℕ × List Char)),
    buildMaps pairs n2c c2n = .ok res → ∀ e ∈ pairs, 1 ≤ e.1 := by
  intro pairs
  induction pairs with
  | nil => intro n2c c2n res h e he; simp at he
  | cons hd tl ih =>
    intro n2c c2n res h e he
    obtain ⟨col, name⟩ := hd
    simp only [buildMaps] at h
    by_cases hguard : (decide (col - 1 < 0) || hasCol (col - 1).toNat c2n) = true
    · rw [if_pos hguard] at h
      exact absurd h (by simp)
    · rw [if_neg hguard] at h
      simp only [Bool.or_eq_true, decide_eq_true_eq, not_or] at hguard
      rcases List.mem_cons.mp he with he1 | he2
      · rw [he1]
        have := hguard.1
        simp only []
        omega
      · exact ih _ _ _ h e he2

lemma buildMaps_ok_nodup : ∀ (pairs : List (ℤ × List Char)) (n2c : List (List Char × ℕ))
    (c2n : List (ℕ × List Char)) (res : List (List Char × ℕ) × List (ℕ × List Char)),
    buildMaps pairs n2c c2n = .ok res →
    (pairs.map (fun e => (e.1 - 1).toNat)).Nodup ∧
      ∀ e ∈ pairs, hasCol (e.1 - 1).toNat c2n = false := by
  intro pairs
  induction pairs with
  | nil => intro n2c c2n res h; exact ⟨List.nodup_nil, by simp⟩
  | cons hd tl ih =>
    intro n2c c2n res h
    obtain ⟨col, name⟩ := hd
    simp only [buildMaps] at h
    by_cases hguard : (decide (col - 1 < 0) || hasCol (col - 1).toNat c2n) = true
    · rw [if_pos hguard] at h
      exact absurd h (by simp)
    · rw [if_neg hguard] at h
      simp only [Bool.or_eq_true, decide_eq_true_eq, not_or, Bool.not_eq_true] at hguard
      obtain ⟨hnd, hnotin⟩ := ih _ _ _ h
      have hkey : ∀ e ∈ tl, (e.1 - 1).toNat ≠ (col - 1).toNat ∧
          hasCol (e.1 - 1).toNat c2n = false := by
        intro e he
        have h2 := hnotin e he
        rw [Bool.eq_false_iff] at h2
        constructor
        · intro hkk
          exact h2 ((hasCol_mapInsert _ _ _ _ _).mpr (Or.inl hkk))
        · rw [Bool.eq_false_iff]
          intro hc
          exact h2 ((hasCol_mapInsert _ _ _ _ _).mpr (Or.inr hc))
      refine ⟨?_, ?_⟩
      · rw [List.map_cons, List.nodup_cons]
        refine ⟨?_, hnd⟩
        intro hmem
        obtain ⟨e, he, heq⟩ := List.mem_map.mp hmem
        exact (hkey e he).1 heq
      · intro e he
        rcases List.mem_cons.mp he with he1 | he2
        · rw [he1]
          exact hguard.2
        · exact (hkey e he2).2

lemma buildMaps_keys_monotone : ∀ (pairs : List (ℤ × List Char))
    (n2c : List (List Char × ℕ)) (c2n : List (ℕ × List Char))
    (res : List (List Char × ℕ) × List (ℕ × List Char)),
    buildMaps pairs n2c c2n = .ok res →
    ∀ (k : List Char) (w : ℕ), (k, w) ∈ n2c → ∃ w2, (k, w2) ∈ res.1 := by
  intro pairs
  induction pairs with
  | nil =>
    intro n2c c2n res h k w hmem
    simp only [buildMaps] at h
    injection h with h
    rw [← h]
    exact ⟨w, hmem⟩
  | cons hd tl ih =>
    intro n2c c2n res h k w hmem
    obtain ⟨col, name⟩ := hd
    simp only [buildMaps] at h
    by_cases hguard : (decide (col - 1 < 0) || hasCol (col - 1).toNat c2n) = true
    · rw [if_pos hguard] at h
      exact absurd h (by simp)
    · rw [if_neg hguard] at h
      obtain ⟨w2, hw2⟩ := mapInsert_key_preserved charListLt k name ((col - 1).toNat) n2c w hmem
      exact ih _ _ _ h k w2 hw2

lemma buildMaps_pair_names : ∀ (pairs : List (ℤ × List Char))
    (n2c : List (List Char × ℕ)) (c2n : List (ℕ × List Char))
    (res : List (List Char × ℕ) × List (ℕ × List Char)),
    buildMaps pairs n2c c2n = .ok res →
    ∀ e ∈ pairs, ∃ w, (e.2, w) ∈ res.1 := by
  intro pairs
  induction pairs with
  | nil => intro n2c c2n res h e he; simp at he
  | cons hd tl ih =>
    intro n2c c2n res h e he
    obtain ⟨col, name⟩ := hd
    simp only [buildMaps] at h
    by_cases hguard : (decide (col - 1 < 0) || hasCol (col - 1).toNat c2n) = true
    · rw [if_pos hguard] at h
      exact absurd h (by simp)
    · rw [if_neg hguard] at h
      rcases List.mem_cons.mp he with he1 | he2
      · rw [he1]
        exact buildMaps_keys_monotone tl _ _ res h name ((col - 1).toNat)
          (mapInsert_self_mem charListLt name _ n2c)
      · exact ih _ _ _ h e he2

lemma buildMaps_keys_source : ∀ (pairs : List (ℤ × List Char))
    (n2c : List (List Char × ℕ)) (c2n : List (ℕ × List Char))
    (res : List (List Char × ℕ) × List (ℕ × List Char)),
    buildMaps pairs n2c c2n = .ok res →
    ∀ (k : List Char) (w : ℕ), (k, w) ∈ res.1 →
      (∃ w2, (k, w2) ∈ n2c) ∨ k ∈ pairs.map Prod.snd := by
  intro pairs
  induction pairs with
  | nil =>
    intro n2c c2n res h k w hmem
    simp only [buildMaps] at h
    injection h with h
    rw [← h] at hmem
    exact Or.inl ⟨w, hmem⟩
  | cons hd tl ih =>
    intro n2c c2n res h k w hmem
    obtain ⟨col, name⟩ := hd
    simp only [buildMaps] at h
    by_cases hguard : (decide (col - 1 < 0) || hasCol (col - 1).toNat c2n) = true
    · rw [if_pos hguard] at h
      exact absurd h (by simp)
    · rw [if_neg hguard] at h
      rcases ih _ _ _ h k w hmem with ⟨w2, hw2⟩ | hr
      · rcases mapInsert_mem_source charListLt k name w2 ((col - 1).toNat) n2c hw2 with
          hl | hr2
        · rw [hl]
          exact Or.inr (by simp)
        · exact Or.inl ⟨w2, hr2⟩
      · exact Or.inr (List.mem_map.mpr
          (by obtain ⟨e, he, heq⟩ := List.mem_map.mp hr; exact ⟨e, List.mem_cons_of_mem _ he, heq⟩))

lemma buildSorted_ok_names : ∀ (n2c : List (List Char × ℕ)) (sn : ℕ → List Char)
    (c2s : List (ℕ × ℕ)) (res : (ℕ → List Char) × List (ℕ × ℕ)),
    buildSorted n2c sn c2s = .ok res →
    ∀ e ∈ n2c, (get_sorted_index_for_name e.1).isSome = true := by
  intro n2c
  induction n2c with
  | nil => intro sn c2s res h e he; simp at he
  | cons hd tl ih =>
    intro sn c2s res h e he
    obtain ⟨name, col⟩ := hd
    simp only [buildSorted] at h
    rcases hidx : get_sorted_index_for_name name with _ | idx
    · rw [hidx] at h
      exact absurd h (by simp)
    · rw [hidx] at h
      rcases List.mem_cons.mp he with he1 | he2
      · rw [he1]
        simp only []
        rw [hidx]
        rfl
      · exact ih _ _ _ h e he2

lemma buildSorted_sn_source : ∀ (n2c : List (List Char × ℕ)) (sn : ℕ → List Char)
    (c2s : List (ℕ × ℕ)) (res : (ℕ → List Char) × List (ℕ × ℕ)),
    buildSorted n2c sn c2s = .ok res →
    ∀ s : ℕ, res.1 s = sn s ∨ ∃ col, (res.1 s, col) ∈ n2c := by
  intro n2c
  induction n2c with
  | nil =>
    intro sn c2s res h s
    simp only [buildSorted] at h
    injection h with h
    rw [← h]
    exact Or.inl rfl
  | cons hd tl ih =>
    intro sn c2s res h s
    obtain ⟨name, col⟩ := hd
    simp only [buildSorted] at h
    rcases hidx : get_sorted_index_for_name name with _ | idx
    · rw [hidx] at h
      exact absurd h (by simp)
    · rw [hidx] at h
      rcases ih _ _ _ h s with hl | ⟨col2, hr⟩
      · rw [hl]
        by_cases hs : s = idx
        · rw [hs, Function.update_same]
          exact Or.inr ⟨col, List.mem_cons_self _ _⟩
        · rw [Function.update_noteq hs]
          exact Or.inl rfl
      · exact Or.inr ⟨col2, List.mem_cons_of_mem _ hr⟩

lemma schemeNames_ne_nil (fmt : CsvFormat) : ∀ name ∈ schemeNames fmt, name ≠ [] := by
  cases fmt <;> decide

lemma determineFormat_names (sn : ℕ → List Char) (fmt : CsvFormat)
    (h : determineFormat sn = .ok fmt) :
    ∀ name ∈ schemeNames fmt, ∃ s : ℕ, sn s = name := by
  unfold determineFormat at h
  split at h
  · injection h with h
    subst h
    intro name hname
    simp only [schemeNames, List.mem_cons, List.not_mem_nil, or_false] at hname
    rcases hname with h2 | h2 | h2 <;> rw [h2]
    · exact ⟨0, by tauto⟩
    · exact ⟨1, by tauto⟩
    · exact ⟨2, by tauto⟩
  · split at h
    · injection h with h
      subst h
      intro name hname
      simp only [schemeNames, List.mem_cons, List.not_mem_nil, or_false] at hname
      rcases hname with h2 | h2 | h2 <;> rw [h2]
      · exact ⟨0, by tauto⟩
      · exact ⟨1, by tauto⟩
      · exact ⟨2, by tauto⟩
    · split at h
      · injection h with h
        subst h
        intro name hname
        simp only [schemeNames, List.mem_cons, List.not_mem_nil, or_false] at hname
        rcases hname with h2 | h2 | h2 <;> rw [h2]
        · exact ⟨0, by tauto⟩
        · exact ⟨1, by tauto⟩
        · exact ⟨2, by tauto⟩
      · split at h
        · injection h with h
          subst h
          intro name hname
          simp only [schemeNames, List.mem_cons, List.not_mem_nil, or_false] at hname
          rcases hname with h2 | h2 | h2 <;> rw [h2]
          · exact ⟨0, by tauto⟩
          · exact ⟨1, by tauto⟩
          · exact ⟨2, by tauto⟩
        · split at h
          · injection h with h
            subst h
            intro name hname
            simp only [schemeNames, List.mem_cons, List.not_mem_nil, or_false] at hname
            rcases hname with h2 | h2 | h2 <;> rw [h2]
            · exact ⟨0, by tauto⟩
            · exact ⟨1, by tauto⟩
            · exact ⟨2, by tauto⟩
          · exact absurd h (by simp)

/-- C9 counterexample: the descriptor pairs for "1:x 2:y 4:z" declare
non-contiguous column indices (4 is declared but 3 is not), yet
parse_csv_format accepts them, refuting the claim that success requires
contiguous column indices. -/
theorem C9_counterexample :
    (parse_csv_format [(1, "x".data), (2, "y".data), (4, "z".data)]).isOk = true ∧
    contiguousColumns [(1, "x".data), (2, "y".data), (4, "z".data)] = false := by
  constructor
  · rfl
  · rfl

/-- C9 (amended): whenever parse_csv_format succeeds, all declared column
indices are positive and pairwise distinct, the number of distinct declared
names is 3 or 4, every declared name is a supported column name, and the
three point names of exactly one of the five coordinate schemes are among the
declared names. Contiguity of the column indices is NOT enforced, and a
fourth declared column need not be the identifier field. -/
theorem C9_parse_format_necessity (pairs : List (ℤ × List Char)) (pf : ParsedFormat)
    (h : parse_csv_format pairs = .ok pf) :
    (∀ e ∈ pairs, 1 ≤ e.1) ∧ (pairs.map Prod.fst).Nodup ∧
    3 ≤ pf.num_targets ∧ pf.num_targets ≤ 4 ∧
    (∀ e ∈ pairs, (get_sorted_index_for_name e.2).isSome = true) ∧
    (∀ name ∈ schemeNames pf.format, name ∈ pairs.map Prod.snd) := by
  unfold parse_csv_format at h
  rcases hbm : buildMaps pairs [] [] with e | ⟨n2c, c2n⟩
  · rw [hbm] at h
    exact absurd h (by simp)
  rw [hbm] at h
  simp only [] at h
  by_cases hgate : (n2c.length < 3 || 4 < n2c.length) = true
  · rw [if_pos hgate] at h
    exact absurd h (by simp)
  rw [if_neg hgate] at h
  simp only [Bool.or_eq_true, decide_eq_true_eq, not_or, Nat.not_lt] at hgate
  rcases hbs : buildSorted n2c (fun _ => []) [] with e | ⟨sn, c2s⟩
  · rw [hbs] at h
    exact absurd h (by simp)
  rw [hbs] at h
  simp only [] at h
  rcases hdf : determineFormat sn with e | fmt
  · rw [hdf] at h
    exact absurd h (by simp)
  rw [hdf] at h
  simp only [] at h
  injection h with h
  subst h
  refine ⟨buildMaps_ok_pos pairs [] [] _ hbm, ?_, by exact hgate.1, by exact hgate.2, ?_, ?_⟩
  · have hnd := (buildMaps_ok_nodup pairs [] [] _ hbm).1
    have hmm : pairs.map (fun e => (e.1 - 1).toNat)
        = (pairs.map Prod.fst).map (fun c => (c - 1).toNat) := by
      rw [List.map_map]
      rfl
    rw [hmm] at hnd
    exact hnd.of_map
  · intro e he
    obtain ⟨w, hw⟩ := buildMaps_pair_names pairs [] [] _ hbm e he
    exact buildSorted_ok_names n2c _ _ _ hbs (e.2, w) hw
  · intro name hname
    simp only [] at hname
    obtain ⟨s, hsn⟩ := determineFormat_names sn fmt hdf name hname
    rcases buildSorted_sn_source n2c _ _ _ hbs s with hl | ⟨col2, hr⟩
    · exfalso
      have hl2 : sn s = [] := hl
      rw [hsn] at hl2
      exact schemeNames_ne_nil fmt name hname hl2
    · have hr2 : (sn s, col2) ∈ n2c := hr
      rw [hsn] at hr2
      rcases buildMaps_keys_source pairs [] [] _ hbm name col2 hr2 with ⟨w2, hw2⟩ | hmem
      · simp at hw2
      · exact hmem

theorem C9_witness :
    parse_csv_format [(1, "x".data), (2, "y".data), (3, "z".data)] = .ok
      ⟨CsvFormat.XYZ, [("x".data, 0), ("y".data, 1), ("z".data, 2)],
        [(0, "x".data), (1, "y".data), (2, "z".data)], [(0, 0), (1, 1), (2, 2)], 3⟩ ∧
    3 ≤ (3 : ℕ) :=
  ⟨rfl, (C9_parse_format_necessity [(1, "x".data), (2, "y".data), (3, "z".data)] _
    rfl).2.2.1⟩
